import Mathlib

/-!
Verification development for the `nature-talk` Alexa skill backend
(`src/lambda_function.py`).

Python strings are modelled as `List Char`; byte-level details do not
matter for these claims.  Fallible Python code (exceptions) is modelled
by `Option`/explicit raise flags.  JSON values are a `JVal` inductive and
`json.loads` is a fuel-based recursive-descent parser covering the
fragment relevant here (objects, arrays, strings with simple escapes,
integers, `true`/`false`/`null`); floating-point literals are rejected by
the model, which no claim exercises.
-/

namespace NatureTalk

/-- Whitespace for Python `str.strip()` (the ASCII part, which is all the
code paths here produce). -/
def pws (c : Char) : Bool :=
  [' ', '\t', '\n', '\r', '\x0b', '\x0c'].contains c

/-- Left part of Python `str.strip()`. -/
def lstrip (l : List Char) : List Char := l.dropWhile pws

/-- Right part of Python `str.strip()`. -/
def rstrip (l : List Char) : List Char := (l.reverse.dropWhile pws).reverse

/-- Python `str.strip()`. -/
def pyStrip (l : List Char) : List Char := rstrip (lstrip l)

/-- Python `str.startswith` on char lists. -/
def listStartsWith : List Char → List Char → Bool
  | [], _ => true
  | _ :: _, [] => false
  | p :: ps, c :: cs => p == c && listStartsWith ps cs

/-- Python `str.endswith` on char lists. -/
def listEndsWith (p s : List Char) : Bool := listStartsWith p.reverse s.reverse

/-- The characters of `"```json"`. -/
def fenceJson : List Char := ['`', '`', '`', 'j', 's', 'o', 'n']

/-- The characters of `"```"`. -/
def fenceBare : List Char := ['`', '`', '`']

/-- The characters of `"```json\n"`, the opening of a json-tagged fence. -/
def fjOpen : List Char := ['`', '`', '`', 'j', 's', 'o', 'n', '\n']

/-- The characters of `"```\n"`, the opening of a plain fence. -/
def fOpen : List Char := ['`', '`', '`', '\n']

/-- The characters of `"\n```"`, the closing fence. -/
def fClose : List Char := ['\n', '`', '`', '`']

example : fjOpen = "```json\n".toList ∧ fOpen = "```\n".toList ∧
    fClose = "\n```".toList ∧ fenceJson = "```json".toList ∧
    fenceBare = "```".toList := by decide

/-- The cleanup applied to the raw Claude text in `call_claude`
(lines 127–137): `.strip()`, then the two independent leading-fence `if`s,
then the trailing-fence `if` (`[:-3]`), then a final `.strip()`. -/
def cleanResponse (t : List Char) : List Char :=
  let s0 := pyStrip t
  let s1 := if listStartsWith fenceJson s0 then s0.drop 7 else s0
  let s2 := if listStartsWith fenceBare s1 then s1.drop 3 else s1
  let s3 := if listEndsWith fenceBare s2 then s2.take (s2.length - 3) else s2
  pyStrip s3

/-- Cleaner following claim C5's words: at most one leading fence is
removed in total (the `"```json"` check takes priority over the plain
`"```"` check), plus the trailing strip.  Used to compare the claim's
reading against the code's actual behaviour. -/
def cleanSingleLead (t : List Char) : List Char :=
  let s0 := pyStrip t
  let s1 :=
    if listStartsWith fenceJson s0 then s0.drop 7
    else if listStartsWith fenceBare s0 then s0.drop 3
    else s0
  let s2 := if listEndsWith fenceBare s1 then s1.take (s1.length - 3) else s1
  pyStrip s2

example : cleanResponse ("```json\nhi\n```".toList) = "hi".toList := by decide

example : cleanResponse ("```json```hello".toList) = "hello".toList := by decide

example : cleanSingleLead ("```json```hello".toList) = "```hello".toList := by decide

/-- JSON values as produced by `json.loads` (integer fragment of numbers). -/
inductive JVal where
  | null : JVal
  | bool (b : Bool) : JVal
  | num (n : Int) : JVal
  | str (s : String) : JVal
  | arr (xs : List JVal) : JVal
  | obj (fields : List (String × JVal)) : JVal
deriving Repr

/-- Lookup in a Python-dict model (association list with unique keys). -/
def alist_get {α : Type} : List (String × α) → String → Option α
  | [], _ => none
  | (k', v) :: rest, k => if k' == k then some v else alist_get rest k

/-- Python dict assignment `d[k] = v`: replace in place if the key exists
(keys are unique in a dict, so replacing the first occurrence suffices),
append otherwise. -/
def dictSet {α : Type} : List (String × α) → String → α → List (String × α)
  | [], k, v => [(k, v)]
  | (k', v') :: rest, k, v =>
    if k' == k then (k, v) :: rest
    else (k', v') :: dictSet rest k v

/-- JSON whitespace accepted by `json.loads`. -/
def jws (c : Char) : Bool := ['\t', '\n', '\r', ' '].contains c

def dropJws (s : List Char) : List Char := s.dropWhile jws

/-- One escape character inside a JSON string (`\uXXXX` unsupported in the
model; no claim exercises it). -/
def escChar (e : Char) : Option Char :=
  if e == '"' || e == '/' || e == '\\' then some e
  else if e == 'n' then some '\n'
  else if e == 't' then some '\t'
  else if e == 'r' then some '\r'
  else if e == 'b' then some '\x08'
  else if e == 'f' then some '\x0c'
  else none

/-- Body of a JSON string after the opening quote. -/
def jsonStringBody : List Char → List Char → Option (String × List Char)
  | _, [] => none
  | acc, '"' :: rest => some (String.mk acc.reverse, rest)
  | acc, '\\' :: e :: rest =>
    match escChar e with
    | some c => jsonStringBody (c :: acc) rest
    | none => none
  | _, '\\' :: [] => none
  | acc, c :: rest => jsonStringBody (c :: acc) rest

def digitsToNat (ds : List Char) : Nat :=
  ds.foldl (fun n c => n * 10 + (c.toNat - 48)) 0

/-- Leading digit run as a number; fails when there is no digit. -/
def parseNat (s : List Char) : Option (Nat × List Char) :=
  let ds := s.takeWhile Char.isDigit
  if ds.isEmpty then none else some (digitsToNat ds, s.dropWhile Char.isDigit)

mutual

def parseVal : Nat → List Char → Option (JVal × List Char)
  | 0, _ => none
  | fuel + 1, s =>
    match dropJws s with
    | '{' :: rest => parseObjRest fuel rest []
    | '[' :: rest => parseArrRest fuel rest []
    | '"' :: rest => (jsonStringBody [] rest).map (fun p => (JVal.str p.1, p.2))
    | 't' :: 'r' :: 'u' :: 'e' :: rest => some (JVal.bool true, rest)
    | 'f' :: 'a' :: 'l' :: 's' :: 'e' :: rest => some (JVal.bool false, rest)
    | 'n' :: 'u' :: 'l' :: 'l' :: rest => some (JVal.null, rest)
    | '-' :: rest => (parseNat rest).map (fun p => (JVal.num (-(p.1 : Int)), p.2))
    | c :: rest =>
      if c.isDigit then (parseNat (c :: rest)).map (fun p => (JVal.num (p.1 : Int), p.2))
      else none
    | [] => none

def parseObjRest : Nat → List Char → List (String × JVal) →
    Option (JVal × List Char)
  | 0, _, _ => none
  | fuel + 1, s, acc =>
    match dropJws s with
    | '}' :: rest => some (JVal.obj acc, rest)
    | '"' :: rest =>
      match jsonStringBody [] rest with
      | none => none
      | some (k, r2) =>
        match dropJws r2 with
        | ':' :: r3 =>
          match parseVal fuel r3 with
          | none => none
          | some (v, r4) =>
            match dropJws r4 with
            | ',' :: r5 => parseObjRest fuel r5 (dictSet acc k v)
            | '}' :: r5 => some (JVal.obj (dictSet acc k v), r5)
            | _ => none
        | _ => none
    | _ => none

def parseArrRest : Nat → List Char → List JVal → Option (JVal × List Char)
  | 0, _, _ => none
  | fuel + 1, s, acc =>
    match dropJws s with
    | ']' :: rest => some (JVal.arr acc.reverse, rest)
    | _ =>
      match parseVal fuel s with
      | none => none
      | some (v, r2) =>
        match dropJws r2 with
        | ',' :: r3 => parseArrRest fuel r3 (v :: acc)
        | ']' :: r3 => some (JVal.arr (v :: acc).reverse, r3)
        | _ => none

end

/-- Model of Python `json.loads`: a full parse with no trailing garbage. -/
def json_loads (s : List Char) : Option JVal :=
  match parseVal (2 * s.length + 4) s with
  | some (v, rest) => if (dropJws rest).isEmpty then some v else none
  | none => none

example : json_loads ("{}".toList) = some (JVal.obj []) := rfl

example :
    json_loads (['{', '"', 'a', '"', ':', ' ', '1', '}']) =
      some (JVal.obj [("a", JVal.num 1)]) := rfl

example : json_loads ("not json".toList) = none := rfl

example : json_loads ("[1, 2]".toList) = some (JVal.arr [JVal.num 1, JVal.num 2]) := rfl

/-- One conversation turn sent to the vendor (`{"role": ..., "content": ...}`). -/
structure Msg where
  role : String
  content : String
deriving Repr, DecidableEq

/-- Outcome of the vendor round-trip in `call_claude`'s `try` block, up to
the extraction of `response.content[0].text`: either that text, or any
exception from the client construction / network call / content indexing
(all of which land in the `except Exception` arm). -/
inductive VendorResult where
  | ok (text : String) : VendorResult
  | fail : VendorResult

/-- The fixed reply returned from `call_claude`'s `except Exception` arm. -/
def apiErrMsg : String := "申し訳ございません。エラーが発生しました。"

/-- The fixed reply returned from `call_claude`'s `except json.JSONDecodeError` arm. -/
def parseErrMsg : String := "すみません、うまく理解できませんでした。もう一度お願いします。"

def apiErrorReply : JVal :=
  JVal.obj [("response", JVal.str apiErrMsg), ("actions", JVal.arr [])]

def parseErrorReply : JVal :=
  JVal.obj [("response", JVal.str parseErrMsg), ("actions", JVal.arr [])]

/-- `call_claude(user_message, conversation_history)`.  The vendor is a
parameter: it receives the outbound message list
`conversation_history + [{"role": "user", "content": user_message}]` and
produces a `VendorResult`.  On success the cleaned text is parsed and the
parsed value is returned as-is (the code performs no shape validation). -/
def call_claude (vendor : List Msg → VendorResult) (user_message : String)
    (conversation_history : List Msg := []) : JVal :=
  let messages := conversation_history ++ [⟨"user", user_message⟩]
  match vendor messages with
  | .ok text =>
    match json_loads (cleanResponse text.toList) with
    | some parsed => parsed
    | none => parseErrorReply
  | .fail => apiErrorReply

/-- The spec's well-formed `AssistantReply` shape: `response` is a
non-empty string and `actions` is an array. -/
def wellFormedReply : JVal → Bool
  | .obj fs =>
    (match alist_get fs "response" with
     | some (.str s) => !s.isEmpty
     | _ => false) &&
    (match alist_get fs "actions" with
     | some (.arr _) => true
     | _ => false)
  | _ => false

example : wellFormedReply apiErrorReply = true := rfl

example : wellFormedReply parseErrorReply = true := rfl

example : call_claude (fun _ => .ok "{}") "hi" [] = JVal.obj [] := rfl

/-- The module-level `devices` map at cold start. -/
def devices0 : List (String × List (String × JVal)) :=
  [("light", [("status", JVal.str "off"), ("brightness", JVal.num 0)]),
   ("aircon", [("status", JVal.str "off"), ("temperature", JVal.num 25)])]

/-- Python `action.get(k)` on a dict that came from `json.loads`: a missing
key and a JSON `null` value both come back as `None`. -/
def pyDictGet (fields : List (String × JVal)) (k : String) : Option JVal :=
  match alist_get fields k with
  | some JVal.null => none
  | r => r

/-- `devices[d][k] = v` (only reached when `d` is a key of the map). -/
def devSetField (m : List (String × List (String × JVal))) (d k : String)
    (v : JVal) : List (String × List (String × JVal)) :=
  match alist_get m d with
  | some r => dictSet m d (dictSet r k v)
  | none => m

/-- The `command` block of the loop body: `"on"`/`"off"` set `status`,
anything else (including a missing command) leaves the map untouched. -/
def applyCommand (m : List (String × List (String × JVal))) (d : String) :
    Option JVal → List (String × List (String × JVal))
  | some (.str c) =>
    if c == "on" then devSetField m d "status" (JVal.str "on")
    else if c == "off" then devSetField m d "status" (JVal.str "off")
    else m
  | _ => m

/-- The `value` block of the loop body: an extant (non-`None`) value is
written unconditionally into the device-specific attribute. -/
def applyValue (m : List (String × List (String × JVal))) (d : String) :
    Option JVal → List (String × List (String × JVal))
  | some v =>
    if d == "light" then devSetField m d "brightness" v
    else if d == "aircon" then devSetField m d "temperature" v
    else m
  | none => m

/-- One iteration of the `for action in actions` loop of `execute_actions`:
returns the updated map, an optional confirmation string, and whether the
iteration raised.  A non-dict action raises (`.get` on a non-dict is an
`AttributeError`), and so does a dict whose `device` value is a JSON array
or object: `device in devices` raises `TypeError: unhashable type` for a
list/dict.  A missing/`null`/boolean/number device is hashable, is simply
not a key, and the action is skipped silently. -/
def action_step (m : List (String × List (String × JVal))) (a : JVal) :
    List (String × List (String × JVal)) × Option String × Bool :=
  match a with
  | .obj fields =>
    match pyDictGet fields "device" with
    | some (.str d) =>
      if (alist_get m d).isSome then
        (applyValue (applyCommand m d (pyDictGet fields "command")) d
           (pyDictGet fields "value"),
         some (d ++ "を制御しました"), false)
      else (m, none, false)
    | some (.arr _) => (m, none, true)
    | some (.obj _) => (m, none, true)
    | _ => (m, none, false)
  | _ => (m, none, true)

/-- A dict action whose `device` value (after `.get`) is hashable, i.e.
not a JSON array or object — exactly the actions on which the loop's
`device in devices` membership test does not raise. -/
def hashableDevice (fields : List (String × JVal)) : Bool :=
  match pyDictGet fields "device" with
  | some (JVal.arr _) => false
  | some (JVal.obj _) => false
  | _ => true

/-- `execute_actions(actions)` with the device map threaded explicitly.
The third component records whether the loop raised; a raise keeps the
mutations made so far but the local `results` list is lost. -/
def execute_actions (m : List (String × List (String × JVal)))
    (actions : List JVal) :
    List (String × List (String × JVal)) × List String × Bool :=
  match actions with
  | [] => (m, [], false)
  | a :: rest =>
    match action_step m a with
    | (m1, _, true) => (m1, [], true)
    | (m1, conf, false) =>
      match execute_actions m1 rest with
      | (m2, cs, false) => (m2, conf.toList ++ cs, false)
      | (m2, _, true) => (m2, [], true)

example :
    execute_actions devices0
      [JVal.obj [("device", JVal.str "light"), ("command", JVal.str "on"),
                 ("value", JVal.num 80)]] =
    ([("light", [("status", JVal.str "on"), ("brightness", JVal.num 80)]),
      ("aircon", [("status", JVal.str "off"), ("temperature", JVal.num 25)])],
     ["lightを制御しました"], false) := rfl

example :
    execute_actions devices0
      [JVal.obj [("device", JVal.str "unknown"), ("command", JVal.str "on")]] =
    (devices0, [], false) := rfl

/-- The key list of a Python-dict model, in insertion order. -/
def keysOf {α : Type} (m : List (String × α)) : List String := m.map Prod.fst

/-- `devices[d][k]` as an `Option`. -/
def fieldOf (m : List (String × List (String × JVal))) (d k : String) :
    Option JVal :=
  (alist_get m d).bind (fun r => alist_get r k)

/-- A device record whose `status` is the string `"on"` or `"off"`. -/
def statusOk (r : List (String × JVal)) : Bool :=
  match alist_get r "status" with
  | some (JVal.str s) => s == "on" || s == "off"
  | _ => false

/-- Claim C9's invariant: the map has exactly the keys `light` and
`aircon`, and every device's `status` is `"on"` or `"off"`. -/
def devInv (m : List (String × List (String × JVal))) : Bool :=
  (keysOf m == ["light", "aircon"]) && m.all (fun p => statusOk p.2)

/-- An action whose `device` field names a key of the device map. -/
def knownDev (m : List (String × List (String × JVal)))
    (fields : List (String × JVal)) : Bool :=
  match pyDictGet fields "device" with
  | some (JVal.str d) => (alist_get m d).isSome
  | _ => false

example : devInv devices0 = true := rfl

/-- Python truthiness of a `.get` result coming from parsed JSON
(`None`/`null` falsy, empty string/list/dict and `0` falsy). -/
def jTruthy : Option JVal → Bool
  | none => false
  | some JVal.null => false
  | some (JVal.bool b) => b
  | some (JVal.num n) => n != 0
  | some (JVal.str s) => !s.isEmpty
  | some (JVal.arr xs) => !xs.isEmpty
  | some (JVal.obj fs) => !fs.isEmpty

/-- Python iteration over a JSON value: lists yield elements, strings yield
one-character strings, dicts yield their keys, anything else raises. -/
def iterJ : JVal → Option (List JVal)
  | .arr xs => some xs
  | .str s => some (s.toList.map (fun c => JVal.str (String.mk [c])))
  | .obj fs => some (fs.map (fun p => JVal.str p.1))
  | _ => none

/-- Python `result[k]` subscription: `none` models a raised `TypeError`
(non-dict) or `KeyError` (missing key); a stored JSON `null` is returned
as a value here, unlike `.get`. -/
def pySubscript (v : JVal) (k : String) : Option JVal :=
  match v with
  | .obj fs => alist_get fs k
  | _ => none

/-- The subset of the inbound Alexa envelope the handlers read. -/
structure AlexaEvent where
  requestType : String
  intentName : Option String
  slots : Option (List (String × Option String))

/-- `ask_sdk_core.utils.is_request_type` (external SDK; modelled from the
spec's routing description: match on the request type tag). -/
def is_request_type (t : String) (ev : AlexaEvent) : Bool :=
  ev.requestType == t

/-- `ask_sdk_core.utils.is_intent_name` (external SDK; modelled from the
spec's routing description: an intent request with the given name). -/
def is_intent_name (n : String) (ev : AlexaEvent) : Bool :=
  ev.requestType == "IntentRequest" && ev.intentName == some n

/-- The slot extraction in `FreeTalkIntentHandler.handle`: errors (absent
slot collection) are caught locally, an empty value is falsy. -/
def extractUserInput (slots : Option (List (String × Option String))) :
    Option String :=
  match slots with
  | none => none
  | some l =>
    match alist_get l "UserInput" with
    | some (some v) => if v.isEmpty then none else some v
    | _ => none

/-- The outbound response as far as the claims observe it: the value passed
to `.speak` (none when no speech at all) and the `.ask` re-prompt (its
presence keeps the session open). -/
structure SkillResponse where
  speech : Option JVal
  ask : Option String
deriving Repr

def greetingMsg : String := "ネイチャートークアシスタントです。何かお手伝いしましょうか？"

def helpMsg : String :=
  "ネイチャートークアシスタントです。" ++
  "「照明を明るくして」や「エアコンをつけて」のようなデバイス操作や、" ++
  "「今日は寒いね」のような自然な会話もできます。"

def farewellMsg : String := "またお話ししましょう"

def notSupportedMsg : String := "すみません、そのリクエストにはまだ対応していません。"

/-- `AllExceptionHandler`'s spoken text. -/
def excMsg : String := "エラーが発生しました。もう一度お願いします。"

def askMoreMsg : String := "他に何かありますか？"

def askHelpMsg : String := "何かお手伝いしましょうか？"

def freeTalkDefaultPrompt : String := "ユーザーが何か話しかけました"

def simplePhrasePrompt : String :=
  "ユーザーが状態や感情を表現しました（暑い、寒い、疲れた等）。適切に応答してください。"

def deviceControlPrompt : String :=
  "ユーザーがデバイスの操作を要求しました（つけて、消して等）。文脈から判断して適切に対応してください。"

def fallbackPrompt : String :=
  "ユーザーが話しかけましたが、正確には聞き取れませんでした。自然に会話を続けてください。"

/-- The shared body of the four LLM-backed handlers:
`result = call_claude(prompt)`, `speech_text = result["response"]`,
`if result.get("actions"): execute_actions(result["actions"])`, then
`speak(speech_text).ask("他に何かありますか？")`.  Returns `none` in the
first component when the body raises (handled by `AllExceptionHandler`),
together with the (possibly partially mutated) device map. -/
def llmHandle (vendor : List Msg → VendorResult) (prompt : String)
    (m : List (String × List (String × JVal))) :
    Option SkillResponse × List (String × List (String × JVal)) :=
  let result := call_claude vendor prompt []
  match result with
  | .obj fs =>
    match alist_get fs "response" with
    | none => (none, m)
    | some speechVal =>
      if jTruthy (pyDictGet fs "actions") then
        match alist_get fs "actions" with
        | some av =>
          match iterJ av with
          | none => (none, m)
          | some xs =>
            match execute_actions m xs with
            | (m1, _, true) => (none, m1)
            | (m1, _, false) =>
              (some ⟨some speechVal, some askMoreMsg⟩, m1)
        | none => (none, m)
      else (some ⟨some speechVal, some askMoreMsg⟩, m)
  | _ => (none, m)

inductive HandlerTag where
  | launch | freeTalk | simplePhrase | deviceControl | fallbackIntent
  | help | cancelStop | sessionEnded | catchAll
deriving Repr, DecidableEq

/-- The `SkillBuilder` registration list, in source order, paired with each
handler's `can_handle` predicate. -/
def handlers : List (HandlerTag × (AlexaEvent → Bool)) :=
  [(.launch, is_request_type "LaunchRequest"),
   (.freeTalk, is_intent_name "FreeTalkIntent"),
   (.simplePhrase, is_intent_name "SimplePhrase"),
   (.deviceControl, is_intent_name "DeviceControl"),
   (.fallbackIntent, is_intent_name "AMAZON.FallbackIntent"),
   (.help, is_intent_name "AMAZON.HelpIntent"),
   (.cancelStop, fun ev =>
      is_intent_name "AMAZON.CancelIntent" ev ||
      is_intent_name "AMAZON.StopIntent" ev),
   (.sessionEnded, is_request_type "SessionEndedRequest"),
   (.catchAll, fun _ => true)]

/-- SDK dispatch (modelled from the spec: checked in registration order,
first match wins; the catch-all always matches). -/
def dispatch (ev : AlexaEvent) : HandlerTag :=
  match handlers.find? (fun p => p.2 ev) with
  | some p => p.1
  | none => .catchAll

/-- The warning `CatchAllRequestHandler` logs. -/
def catchAllWarning (ev : AlexaEvent) : String :=
  "[CatchAll] Unmatched request: type=" ++ ev.requestType ++ " intent=" ++
    (match ev.intentName with | some n => n | none => "None")

/-- Run the matched handler's `handle`.  Returns the response (`none` if
the handler raised), the device map, and any warnings logged. -/
def runHandler (tag : HandlerTag) (ev : AlexaEvent)
    (vendor : List Msg → VendorResult)
    (m : List (String × List (String × JVal))) :
    Option SkillResponse × List (String × List (String × JVal)) × List String :=
  match tag with
  | .launch => (some ⟨some (JVal.str greetingMsg), some greetingMsg⟩, m, [])
  | .freeTalk =>
    let prompt := (extractUserInput ev.slots).getD freeTalkDefaultPrompt
    let (r, m1) := llmHandle vendor prompt m
    (r, m1, [])
  | .simplePhrase =>
    let (r, m1) := llmHandle vendor simplePhrasePrompt m
    (r, m1, [])
  | .deviceControl =>
    let (r, m1) := llmHandle vendor deviceControlPrompt m
    (r, m1, [])
  | .fallbackIntent =>
    let (r, m1) := llmHandle vendor fallbackPrompt m
    (r, m1, [])
  | .help => (some ⟨some (JVal.str helpMsg), some askHelpMsg⟩, m, [])
  | .cancelStop => (some ⟨some (JVal.str farewellMsg), none⟩, m, [])
  | .sessionEnded => (some ⟨none, none⟩, m, [])
  | .catchAll =>
    (some ⟨some (JVal.str notSupportedMsg), none⟩, m, [catchAllWarning ev])

/-- `lambda_handler`: dispatch plus the blanket `AllExceptionHandler`,
which converts any raise into the fixed apology response. -/
def lambda_handler (ev : AlexaEvent) (vendor : List Msg → VendorResult)
    (m : List (String × List (String × JVal))) :
    SkillResponse × List (String × List (String × JVal)) × List String :=
  match runHandler (dispatch ev) ev vendor m with
  | (some r, m1, w) => (r, m1, w)
  | (none, m1, w) => (⟨some (JVal.str excMsg), none⟩, m1, w)

/-- The environment variables `_get_api_key` reads. -/
structure EnvVars where
  anthropic_api_key : Option String
  anthropic_api_key_param : Option String
  anthropic_secret_id : Option String

/-- Python truthiness of `os.environ.get(...)`: set and non-empty. -/
def envTruthy : Option String → Bool
  | some s => !s.isEmpty
  | none => false

/-- The Secrets Manager fallback inside `_get_api_key` (step 3).  `sm`
returns the resolved secret string, or `none` for a `ClientError`.  The
returned list records the remote queries made. -/
def getKeyFromSecrets (env : EnvVars) (sm : String → Option String)
    (queries : List String) : Option String × EnvVars × List String :=
  match env.anthropic_secret_id with
  | some sid =>
    if !sid.isEmpty then
      match sm sid with
      | some v =>
        (some v, { env with anthropic_api_key := some v },
         queries ++ ["secretsmanager:" ++ sid])
      | none => (none, env, queries ++ ["secretsmanager:" ++ sid])
    else (none, env, queries)
  | none => (none, env, queries)

/-- `_get_api_key()`: environment variable, then SSM, then Secrets
Manager; a successful remote fetch is cached into the environment.  A
`none` result models the final `raise ValueError`.  The third component
records every remote query made. -/
def _get_api_key (env : EnvVars) (ssm : String → Option String)
    (sm : String → Option String) : Option String × EnvVars × List String :=
  if envTruthy env.anthropic_api_key then (env.anthropic_api_key, env, [])
  else
    match env.anthropic_api_key_param with
    | some p =>
      if !p.isEmpty then
        match ssm p with
        | some v =>
          (some v, { env with anthropic_api_key := some v }, ["ssm:" ++ p])
        | none => getKeyFromSecrets env sm ["ssm:" ++ p]
      else getKeyFromSecrets env sm []
    | none => getKeyFromSecrets env sm []

/-! ## Claim C8: credential resolution priority -/

/-- C8: whenever the direct API-key environment variable is set to a
non-empty value, `_get_api_key` returns exactly that value, mutates
nothing, and performs no SSM or Secrets Manager query. -/
theorem getApiKey_env_first (env : EnvVars) (ssm sm : String → Option String)
    (k : String) (hk : env.anthropic_api_key = some k) (hne : k ≠ "") :
    _get_api_key env ssm sm = (some k, env, []) := by
  have hie : k.isEmpty = false := by
    cases hbe : k.isEmpty
    · rfl
    · exact absurd ((String.isEmpty_iff k).1 hbe) hne
  have ht : envTruthy env.anthropic_api_key = true := by
    rw [hk]
    simp [envTruthy, hie]
  unfold _get_api_key
  rw [if_pos ht, hk]

/-- Witness for C8 at a concrete environment where both the env var and
the parameter-store path are set. -/
theorem getApiKey_env_first_witness :
    _get_api_key
      ⟨some "sk-key", some "/nature-talk/prod/anthropic_api_key",
       some "nature-talk/anthropic"⟩
      (fun _ => some "ssm-value") (fun _ => some "sm-value") =
    (some "sk-key",
     ⟨some "sk-key", some "/nature-talk/prod/anthropic_api_key",
      some "nature-talk/anthropic"⟩, []) :=
  getApiKey_env_first _ _ _ "sk-key" rfl (by decide)

/-! ## Claim C2: call_claude never fails outward -/

/-- C2: `call_claude` always returns: a vendor failure of any kind yields
the fixed API-error reply, a vendor success whose cleaned text does not
parse as JSON yields the fixed parse-error reply, and the two fallback
messages are distinct strings. -/
theorem call_claude_fallbacks (vendor : List Msg → VendorResult)
    (M : String) (H : List Msg) :
    (vendor (H ++ [⟨"user", M⟩]) = VendorResult.fail →
      call_claude vendor M H = apiErrorReply) ∧
    (∀ t, vendor (H ++ [⟨"user", M⟩]) = VendorResult.ok t →
      json_loads (cleanResponse t.toList) = none →
      call_claude vendor M H = parseErrorReply) ∧
    apiErrMsg ≠ parseErrMsg := by
  refine ⟨fun h => ?_, fun t h hj => ?_, by decide⟩
  · simp [call_claude, h]
  · simp [call_claude, h, String.toList] at hj ⊢
    rw [hj]

/-- Witness for C2: a concrete failing vendor and a concrete vendor
returning unparseable text. -/
theorem call_claude_fallbacks_witness :
    call_claude (fun _ => VendorResult.fail) "電気つけて" [] = apiErrorReply ∧
    call_claude (fun _ => VendorResult.ok "not json") "電気つけて" [] =
      parseErrorReply :=
  ⟨(call_claude_fallbacks _ "電気つけて" []).1 rfl,
   (call_claude_fallbacks _ "電気つけて" []).2.1 "not json" rfl rfl⟩

/-! ## Claim C1: shape of call_claude's return value -/

/-- C1 counterexample: when the vendor returns the valid JSON text `"{}"`,
`call_claude` returns the empty object, which is not a well-formed
`AssistantReply` (no `response` field, no `actions` field) — the success
path performs no shape validation. -/
theorem call_claude_shape_counterexample :
    call_claude (fun _ => VendorResult.ok "{}") "こんにちは" [] = JVal.obj [] ∧
    wellFormedReply (JVal.obj []) = false :=
  ⟨rfl, rfl⟩

/-- C1 (amended): both fallback replies are well-formed `AssistantReply`
values, and every `call_claude` result is either one of the two fallbacks
or exactly the JSON value parsed from the vendor's cleaned text,
returned as-is with no shape requirement. -/
theorem call_claude_reply_characterization (vendor : List Msg → VendorResult)
    (M : String) (H : List Msg) :
    wellFormedReply apiErrorReply = true ∧
    wellFormedReply parseErrorReply = true ∧
    (call_claude vendor M H = apiErrorReply ∨
     call_claude vendor M H = parseErrorReply ∨
     ∃ t, vendor (H ++ [⟨"user", M⟩]) = VendorResult.ok t ∧
       json_loads (cleanResponse t.toList) = some (call_claude vendor M H)) := by
  refine ⟨rfl, rfl, ?_⟩
  cases hv : vendor (H ++ [⟨"user", M⟩]) with
  | ok t =>
    cases hj : json_loads (cleanResponse t.toList) with
    | none =>
      right; left
      simp [call_claude, hv, String.toList] at hj ⊢
      rw [hj]
    | some parsed =>
      right; right
      refine ⟨t, rfl, ?_⟩
      simp [call_claude, hv, String.toList] at hj ⊢
      rw [hj]
  | fail =>
    left
    simp [call_claude, hv]

/-! ## Claim C5: fence stripping -/

/-- C5 counterexample: on `"```json```hello"` the code removes both a
leading `"```json"` fence and then a leading `"```"` fence (two leading
removals), whereas the claim's "at most one leading fence in total"
behaviour would leave `"```hello"`. -/
theorem clean_double_fence_counterexample :
    cleanResponse ("```json```hello".toList) = "hello".toList ∧
    cleanSingleLead ("```json```hello".toList) = "```hello".toList ∧
    cleanResponse ("```json```hello".toList) ≠
      cleanSingleLead ("```json```hello".toList) :=
  ⟨by decide, by decide, by decide⟩

/-- C5 (amended): the cleanup strips the stripped text in three stages —
a leading `"```json"` fence (checked first, at most one occurrence), then
independently a leading plain `"```"` fence of whatever remains (at most
one occurrence), then a trailing `"```"` fence (at most one occurrence) —
so up to two leading fences can be removed in total. -/
theorem cleanResponse_cases (t : List Char) :
    (listStartsWith fenceJson (pyStrip t) = true →
      listStartsWith fenceBare ((pyStrip t).drop 7) = true →
      cleanResponse t =
        pyStrip
          (if listEndsWith fenceBare ((pyStrip t).drop 10) then
            ((pyStrip t).drop 10).take (((pyStrip t).drop 10).length - 3)
          else (pyStrip t).drop 10)) ∧
    (listStartsWith fenceJson (pyStrip t) = true →
      listStartsWith fenceBare ((pyStrip t).drop 7) = false →
      cleanResponse t =
        pyStrip
          (if listEndsWith fenceBare ((pyStrip t).drop 7) then
            ((pyStrip t).drop 7).take (((pyStrip t).drop 7).length - 3)
          else (pyStrip t).drop 7)) ∧
    (listStartsWith fenceJson (pyStrip t) = false →
      listStartsWith fenceBare (pyStrip t) = true →
      cleanResponse t =
        pyStrip
          (if listEndsWith fenceBare ((pyStrip t).drop 3) then
            ((pyStrip t).drop 3).take (((pyStrip t).drop 3).length - 3)
          else (pyStrip t).drop 3)) ∧
    (listStartsWith fenceJson (pyStrip t) = false →
      listStartsWith fenceBare (pyStrip t) = false →
      cleanResponse t =
        pyStrip
          (if listEndsWith fenceBare (pyStrip t) then
            (pyStrip t).take ((pyStrip t).length - 3)
          else pyStrip t)) := by
  refine ⟨fun h1 h2 => ?_, fun h1 h2 => ?_, fun h1 h2 => ?_, fun h1 h2 => ?_⟩ <;>
    simp [cleanResponse, h1, h2, List.drop_drop]

/-- Witness for C5 (amended): the double-fence case at
`"```json```hello"` and the no-fence case at `"hi"`. -/
theorem cleanResponse_cases_witness :
    cleanResponse ("```json```hello".toList) =
      pyStrip
        (if listEndsWith fenceBare ((pyStrip ("```json```hello".toList)).drop 10) then
          ((pyStrip ("```json```hello".toList)).drop 10).take
            (((pyStrip ("```json```hello".toList)).drop 10).length - 3)
        else (pyStrip ("```json```hello".toList)).drop 10) ∧
    cleanResponse ("hi".toList) =
      pyStrip
        (if listEndsWith fenceBare (pyStrip ("hi".toList)) then
          (pyStrip ("hi".toList)).take ((pyStrip ("hi".toList)).length - 3)
        else pyStrip ("hi".toList)) :=
  ⟨(cleanResponse_cases ("```json```hello".toList)).1 (by decide) (by decide),
   (cleanResponse_cases ("hi".toList)).2.2.2 (by decide) (by decide)⟩

/-! ## Claim C4: fence cleanup is idempotent across markup variants

Helper lemmas about `pyStrip` and the fence predicates. -/

theorem dropWhile_cons_neg {c : Char} {l : List Char} (h : pws c = false) :
    List.dropWhile pws (c :: l) = c :: l := by
  simp [List.dropWhile_cons, h]

theorem lstrip_cons_pos {c : Char} {l : List Char} (h : pws c = true) :
    lstrip (c :: l) = lstrip l := by
  simp [lstrip, List.dropWhile_cons, h]

theorem lstrip_cons_neg {c : Char} {l : List Char} (h : pws c = false) :
    lstrip (c :: l) = c :: l :=
  dropWhile_cons_neg h

theorem rstrip_append_neg {c : Char} (l : List Char) (h : pws c = false) :
    rstrip (l ++ [c]) = l ++ [c] := by
  unfold rstrip
  rw [List.reverse_append]
  simp only [List.reverse_cons, List.reverse_nil, List.nil_append,
    List.singleton_append]
  rw [dropWhile_cons_neg h]
  simp

theorem rstrip_append_pos {c : Char} (l : List Char) (h : pws c = true) :
    rstrip (l ++ [c]) = rstrip l := by
  unfold rstrip
  rw [List.reverse_append]
  simp only [List.reverse_cons, List.reverse_nil, List.nil_append,
    List.singleton_append, List.dropWhile_cons, h]
  simp

theorem pyStrip_eq_self {c d : Char} (l : List Char) (hc : pws c = false)
    (hd : pws d = false) : pyStrip (c :: (l ++ [d])) = c :: (l ++ [d]) := by
  unfold pyStrip lstrip
  rw [dropWhile_cons_neg hc, ← List.cons_append, rstrip_append_neg _ hd,
    List.cons_append]

theorem pyStrip_cons_ws {c : Char} (l : List Char) (h : pws c = true) :
    pyStrip (c :: l) = pyStrip l := by
  unfold pyStrip
  rw [lstrip_cons_pos h]

theorem length_dropWhile_le (p : Char → Bool) (l : List Char) :
    (List.dropWhile p l).length ≤ l.length := by
  induction l with
  | nil => simp
  | cons a l ih =>
    by_cases h : p a = true
    · rw [List.dropWhile_cons, if_pos h]
      exact Nat.le_trans ih (Nat.le_succ _)
    · simp only [Bool.not_eq_true] at h
      simp [List.dropWhile_cons, h]

theorem dropWhile_idem (p : Char → Bool) (l : List Char) :
    List.dropWhile p (List.dropWhile p l) = List.dropWhile p l := by
  induction l with
  | nil => rfl
  | cons a l ih =>
    by_cases h : p a = true
    · simp [List.dropWhile_cons, h, ih]
    · simp only [Bool.not_eq_true] at h
      simp [List.dropWhile_cons, h]

theorem pyStrip_append_ws {c : Char} (l : List Char) (h : pws c = true) :
    pyStrip (l ++ [c]) = pyStrip l := by
  unfold pyStrip
  unfold lstrip
  rw [List.dropWhile_append]
  by_cases he : (List.dropWhile pws l).isEmpty = true
  · rw [if_pos he]
    have h0 : List.dropWhile pws l = [] := by
      rwa [List.isEmpty_iff] at he
    rw [h0]
    simp [List.dropWhile_cons, h, rstrip]
  · rw [if_neg he]
    exact rstrip_append_pos _ h

theorem lstrip_idem (l : List Char) : lstrip (lstrip l) = lstrip l :=
  dropWhile_idem pws l

theorem rstrip_idem (l : List Char) : rstrip (rstrip l) = rstrip l := by
  unfold rstrip
  rw [List.reverse_reverse, dropWhile_idem]

theorem lstrip_rstrip (l : List Char) (h : lstrip l = l) :
    lstrip (rstrip l) = rstrip l := by
  cases l with
  | nil => rfl
  | cons c v =>
    have hc : pws c = false := by
      by_cases hp : pws c = true
      · exfalso
        unfold lstrip at h
        rw [List.dropWhile_cons, if_pos hp] at h
        have hlen := congrArg List.length h
        have hle := length_dropWhile_le pws v
        simp at hlen
        omega
      · simpa using hp
    unfold rstrip
    rw [List.reverse_cons, List.dropWhile_append]
    by_cases he : (List.dropWhile pws v.reverse).isEmpty = true
    · rw [if_pos he, dropWhile_cons_neg hc]
      simp [lstrip, List.dropWhile_cons, hc]
    · rw [if_neg he]
      rw [List.reverse_append]
      simp only [List.reverse_cons, List.reverse_nil, List.nil_append,
        List.singleton_append]
      exact lstrip_cons_neg hc

theorem pyStrip_idem (l : List Char) : pyStrip (pyStrip l) = pyStrip l := by
  unfold pyStrip
  rw [lstrip_rstrip (lstrip l) (lstrip_idem l), rstrip_idem]

theorem listStartsWith_self_append (p rest : List Char) :
    listStartsWith p (p ++ rest) = true := by
  induction p with
  | nil => rfl
  | cons a p ih => simp [listStartsWith, ih]

theorem listEndsWith_append (p l : List Char) :
    listEndsWith p (l ++ p) = true := by
  unfold listEndsWith
  rw [List.reverse_append]
  exact listStartsWith_self_append _ _

theorem listStartsWith_append_left (p q s : List Char)
    (h : listStartsWith (p ++ q) s = true) : listStartsWith p s = true := by
  induction p generalizing s with
  | nil => rfl
  | cons a p ih =>
    cases s with
    | nil => exact absurd h (by simp [listStartsWith])
    | cons b s =>
      simp only [List.cons_append, listStartsWith, Bool.and_eq_true] at h ⊢
      exact ⟨h.1, ih s h.2⟩

theorem take_drop_fence (l : List Char) :
    (l ++ fenceBare).take ((l ++ fenceBare).length - 3) = l := by
  have h : (l ++ fenceBare).length - 3 = l.length := by
    simp [fenceBare]
  rw [h]
  exact List.take_left _ _

theorem clean_fenced_json (T : List Char) :
    cleanResponse ((fjOpen ++ T) ++ fClose) = pyStrip T := by
  have e0 : pyStrip ((fjOpen ++ T) ++ fClose) = (fjOpen ++ T) ++ fClose := by
    have hsh : (fjOpen ++ T) ++ fClose =
        '`' :: ((['`', '`', 'j', 's', 'o', 'n', '\n'] ++
          (T ++ ['\n', '`', '`'])) ++ ['`']) := by
      simp [fjOpen, fClose, List.append_assoc]
    rw [hsh]
    exact pyStrip_eq_self _ (by decide) (by decide)
  have e1 : listStartsWith fenceJson ((fjOpen ++ T) ++ fClose) = true := rfl
  have e2 : ((fjOpen ++ T) ++ fClose).drop 7 = '\n' :: (T ++ fClose) := rfl
  have e3 : listStartsWith fenceBare ('\n' :: (T ++ fClose)) = false := rfl
  have hsh2 : '\n' :: (T ++ fClose) = ('\n' :: (T ++ ['\n'])) ++ fenceBare := by
    simp [fClose, fenceBare, List.append_assoc]
  have e4 : listEndsWith fenceBare ('\n' :: (T ++ fClose)) = true := by
    rw [hsh2]
    exact listEndsWith_append _ _
  have n3 : ¬ (listStartsWith fenceBare ('\n' :: (T ++ fClose)) = true) := by
    simp [e3]
  simp only [cleanResponse]
  rw [e0, if_pos e1, e2, if_neg n3, if_pos e4, hsh2,
    take_drop_fence, pyStrip_cons_ws _ (by decide),
    pyStrip_append_ws _ (by decide)]

theorem clean_fenced_bare (T : List Char) :
    cleanResponse ((fOpen ++ T) ++ fClose) = pyStrip T := by
  have e0 : pyStrip ((fOpen ++ T) ++ fClose) = (fOpen ++ T) ++ fClose := by
    have hsh : (fOpen ++ T) ++ fClose =
        '`' :: ((['`', '`', '\n'] ++ (T ++ ['\n', '`', '`'])) ++ ['`']) := by
      simp [fOpen, fClose, List.append_assoc]
    rw [hsh]
    exact pyStrip_eq_self _ (by decide) (by decide)
  have e1 : listStartsWith fenceJson ((fOpen ++ T) ++ fClose) = false := rfl
  have e2 : listStartsWith fenceBare ((fOpen ++ T) ++ fClose) = true := rfl
  have e3 : ((fOpen ++ T) ++ fClose).drop 3 = '\n' :: (T ++ fClose) := rfl
  have hsh2 : '\n' :: (T ++ fClose) = ('\n' :: (T ++ ['\n'])) ++ fenceBare := by
    simp [fClose, fenceBare, List.append_assoc]
  have e4 : listEndsWith fenceBare ('\n' :: (T ++ fClose)) = true := by
    rw [hsh2]
    exact listEndsWith_append _ _
  have n1 : ¬ (listStartsWith fenceJson ((fOpen ++ T) ++ fClose) = true) := by
    simp only [e1]
    decide
  simp only [cleanResponse]
  rw [e0, if_neg n1, if_pos e2, e3, if_pos e4, hsh2,
    take_drop_fence, pyStrip_cons_ws _ (by decide),
    pyStrip_append_ws _ (by decide)]

theorem clean_unfenced (T : List Char)
    (h1 : listStartsWith fenceBare (pyStrip T) = false)
    (h2 : listEndsWith fenceBare (pyStrip T) = false) :
    cleanResponse T = pyStrip T := by
  have hj : listStartsWith fenceJson (pyStrip T) = false := by
    by_cases h : listStartsWith fenceJson (pyStrip T) = true
    · exfalso
      have := listStartsWith_append_left fenceBare ['j', 's', 'o', 'n']
        (pyStrip T) h
      rw [h1] at this
      exact Bool.false_ne_true this
    · simpa using h
  have nj : ¬ (listStartsWith fenceJson (pyStrip T) = true) := by simp [hj]
  have n1 : ¬ (listStartsWith fenceBare (pyStrip T) = true) := by simp [h1]
  have n2 : ¬ (listEndsWith fenceBare (pyStrip T) = true) := by simp [h2]
  simp only [cleanResponse]
  rw [if_neg nj, if_neg n1, if_neg n2]
  exact pyStrip_idem T

/-- C4: for any text `T` that is a bare JSON-object payload (its stripped
form neither starts nor ends with a fence marker, as any `{...}` object
text satisfies), cleaning the `"```json"`-fenced form, the plain-fenced
form, and the unfenced form all produce the same cleaned text, hence the
same parsed object. -/
theorem cleanup_fence_idempotent (T : List Char)
    (h1 : listStartsWith fenceBare (pyStrip T) = false)
    (h2 : listEndsWith fenceBare (pyStrip T) = false) :
    cleanResponse ((fjOpen ++ T) ++ fClose) = cleanResponse T ∧
    cleanResponse ((fOpen ++ T) ++ fClose) = cleanResponse T ∧
    json_loads (cleanResponse ((fjOpen ++ T) ++ fClose)) =
      json_loads (cleanResponse T) ∧
    json_loads (cleanResponse ((fOpen ++ T) ++ fClose)) =
      json_loads (cleanResponse T) := by
  have ha : cleanResponse ((fjOpen ++ T) ++ fClose) = cleanResponse T := by
    rw [clean_fenced_json, clean_unfenced T h1 h2]
  have hb : cleanResponse ((fOpen ++ T) ++ fClose) = cleanResponse T := by
    rw [clean_fenced_bare, clean_unfenced T h1 h2]
  exact ⟨ha, hb, by rw [ha], by rw [hb]⟩

/-- Witness for C4 at the JSON object text `{"r":1}`. -/
theorem cleanup_fence_idempotent_witness :
    cleanResponse ((fjOpen ++ ['{', '"', 'r', '"', ':', '1', '}']) ++ fClose) =
      cleanResponse ['{', '"', 'r', '"', ':', '1', '}'] ∧
    cleanResponse ((fOpen ++ ['{', '"', 'r', '"', ':', '1', '}']) ++ fClose) =
      cleanResponse ['{', '"', 'r', '"', ':', '1', '}'] ∧
    json_loads (cleanResponse
        ((fjOpen ++ ['{', '"', 'r', '"', ':', '1', '}']) ++ fClose)) =
      json_loads (cleanResponse ['{', '"', 'r', '"', ':', '1', '}']) ∧
    json_loads (cleanResponse
        ((fOpen ++ ['{', '"', 'r', '"', ':', '1', '}']) ++ fClose)) =
      json_loads (cleanResponse ['{', '"', 'r', '"', ':', '1', '}']) :=
  cleanup_fence_idempotent ['{', '"', 'r', '"', ':', '1', '}']
    (by decide) (by decide)

/-! ## Dictionary lemmas for the device simulator -/

theorem alist_get_isSome_any {α : Type} (m : List (String × α)) (d : String) :
    (alist_get m d).isSome = m.any (fun p => p.1 == d) := by
  induction m with
  | nil => rfl
  | cons p rest ih =>
    by_cases h : (p.1 == d) = true
    · simp [alist_get, h]
    · simp only [Bool.not_eq_true] at h
      simp [alist_get, h, ih]

theorem any_fst_keys {α : Type} (m : List (String × α)) (d : String) :
    m.any (fun p => p.1 == d) = (keysOf m).any (fun k => k == d) := by
  induction m with
  | nil => rfl
  | cons p rest ih => simp [keysOf, List.any_cons, ih]

theorem isSome_of_keysEq {α : Type} (m1 m : List (String × α))
    (h : keysOf m1 = keysOf m) (d : String) :
    (alist_get m1 d).isSome = (alist_get m d).isSome := by
  rw [alist_get_isSome_any, alist_get_isSome_any, any_fst_keys, any_fst_keys, h]

theorem alist_get_dictSet_self {α : Type} (l : List (String × α)) (k : String)
    (v : α) : alist_get (dictSet l k v) k = some v := by
  induction l with
  | nil => simp [dictSet, alist_get]
  | cons p rest ih =>
    rcases p with ⟨k', v'⟩
    by_cases h : (k' == k) = true
    · simp [dictSet, h, alist_get]
    · simp only [Bool.not_eq_true] at h
      simp [dictSet, h, alist_get, ih]

theorem alist_get_dictSet_ne {α : Type} (l : List (String × α)) (k k' : String)
    (v : α) (hne : k' ≠ k) :
    alist_get (dictSet l k v) k' = alist_get l k' := by
  have hbe : (k == k') = false := by
    simp only [beq_eq_false_iff_ne, ne_eq]
    exact fun h => hne h.symm
  induction l with
  | nil => simp [dictSet, alist_get, hbe]
  | cons p rest ih =>
    rcases p with ⟨k0, v0⟩
    by_cases h : (k0 == k) = true
    · have hk0 : k0 = k := beq_iff_eq.1 h
      simp [dictSet, h, alist_get, hbe, hk0]
    · simp only [Bool.not_eq_true] at h
      by_cases hh : (k0 == k') = true
      · simp [dictSet, h, alist_get, hh]
      · simp only [Bool.not_eq_true] at hh
        simp [dictSet, h, alist_get, hh, ih]

theorem keysOf_dictSet_mem {α : Type} (l : List (String × α)) (k : String)
    (v : α) (hmem : l.any (fun p => p.1 == k) = true) :
    keysOf (dictSet l k v) = keysOf l := by
  induction l with
  | nil => exact absurd hmem (by simp)
  | cons p rest ih =>
    rcases p with ⟨k0, v0⟩
    by_cases h : (k0 == k) = true
    · have hk0 : k0 = k := beq_iff_eq.1 h
      simp [dictSet, h, keysOf, hk0]
    · simp only [Bool.not_eq_true] at h
      simp only [List.any_cons, h, Bool.false_or] at hmem
      have := ih hmem
      simp only [keysOf] at this
      simp [dictSet, h, keysOf, this]

theorem keysOf_devSetField (m : List (String × List (String × JVal)))
    (d k : String) (v : JVal) : keysOf (devSetField m d k v) = keysOf m := by
  unfold devSetField
  cases hg : alist_get m d with
  | none => rfl
  | some r =>
    have hmem : m.any (fun p => p.1 == d) = true := by
      rw [← alist_get_isSome_any, hg]
      rfl
    exact keysOf_dictSet_mem m d _ hmem

theorem alist_get_devSetField_self (m : List (String × List (String × JVal)))
    (d k : String) (v : JVal) (r : List (String × JVal))
    (hg : alist_get m d = some r) :
    alist_get (devSetField m d k v) d = some (dictSet r k v) := by
  unfold devSetField
  rw [hg]
  exact alist_get_dictSet_self m d (dictSet r k v)

theorem alist_get_devSetField_ne (m : List (String × List (String × JVal)))
    (d d' k : String) (v : JVal) (hne : d' ≠ d) :
    alist_get (devSetField m d k v) d' = alist_get m d' := by
  unfold devSetField
  cases hg : alist_get m d with
  | none => rfl
  | some r => exact alist_get_dictSet_ne m d d' _ hne

theorem fieldOf_devSetField_self (m : List (String × List (String × JVal)))
    (d k : String) (v : JVal) (hs : (alist_get m d).isSome = true) :
    fieldOf (devSetField m d k v) d k = some v := by
  cases hg : alist_get m d with
  | none => rw [hg] at hs; exact absurd hs (by simp)
  | some r =>
    unfold fieldOf
    rw [alist_get_devSetField_self m d k v r hg]
    exact alist_get_dictSet_self r k v

theorem fieldOf_devSetField_ne_field (m : List (String × List (String × JVal)))
    (d d' k k' : String) (v : JVal) (hk : k' ≠ k) :
    fieldOf (devSetField m d k v) d' k' = fieldOf m d' k' := by
  by_cases hd : d' = d
  · subst hd
    cases hg : alist_get m d' with
    | none =>
      have hm : devSetField m d' k v = m := by
        unfold devSetField
        rw [hg]
      rw [hm]
    | some r =>
      unfold fieldOf
      rw [alist_get_devSetField_self m d' k v r hg, hg]
      exact alist_get_dictSet_ne r k k' v hk
  · unfold fieldOf
    rw [alist_get_devSetField_ne m d d' k v hd]

theorem isSome_devSetField (m : List (String × List (String × JVal)))
    (d k x : String) (v : JVal) :
    (alist_get (devSetField m d k v) x).isSome = (alist_get m x).isSome :=
  isSome_of_keysEq _ _ (keysOf_devSetField m d k v) x

/-! ### applyCommand / applyValue lemmas -/

theorem applyCommand_other (m : List (String × List (String × JVal)))
    (d : String) (c : Option JVal)
    (h1 : c ≠ some (JVal.str "on")) (h2 : c ≠ some (JVal.str "off")) :
    applyCommand m d c = m := by
  cases c with
  | none => rfl
  | some jv =>
    cases jv with
    | str s =>
      have hon : (s == "on") = false := by
        cases hb : (s == "on")
        · rfl
        · exact absurd (by rw [beq_iff_eq.1 hb]) h1
      have hoff : (s == "off") = false := by
        cases hb : (s == "off")
        · rfl
        · exact absurd (by rw [beq_iff_eq.1 hb]) h2
      simp [applyCommand, hon, hoff]
    | null => rfl
    | bool b => rfl
    | num n => rfl
    | arr xs => rfl
    | obj fs => rfl

theorem keysOf_applyCommand (m : List (String × List (String × JVal)))
    (d : String) (c : Option JVal) :
    keysOf (applyCommand m d c) = keysOf m := by
  unfold applyCommand
  cases c with
  | none => rfl
  | some jv =>
    cases jv with
    | str s =>
      by_cases hon : (s == "on") = true
      · simp [hon, keysOf_devSetField]
      · simp only [Bool.not_eq_true] at hon
        by_cases hoff : (s == "off") = true
        · simp [hon, hoff, keysOf_devSetField]
        · simp only [Bool.not_eq_true] at hoff
          simp [hon, hoff]
    | null => rfl
    | bool b => rfl
    | num n => rfl
    | arr xs => rfl
    | obj fs => rfl

theorem keysOf_applyValue (m : List (String × List (String × JVal)))
    (d : String) (w : Option JVal) :
    keysOf (applyValue m d w) = keysOf m := by
  unfold applyValue
  cases w with
  | none => rfl
  | some v =>
    by_cases hl : (d == "light") = true
    · simp [hl, keysOf_devSetField]
    · simp only [Bool.not_eq_true] at hl
      by_cases ha : (d == "aircon") = true
      · simp [hl, ha, keysOf_devSetField]
      · simp only [Bool.not_eq_true] at ha
        simp [hl, ha]

theorem applyCommand_status_on (m : List (String × List (String × JVal)))
    (d : String) (hs : (alist_get m d).isSome = true) :
    fieldOf (applyCommand m d (some (JVal.str "on"))) d "status" =
      some (JVal.str "on") := by
  simp only [applyCommand]
  rw [if_pos (by rfl)]
  exact fieldOf_devSetField_self m d "status" (JVal.str "on") hs

theorem applyCommand_status_off (m : List (String × List (String × JVal)))
    (d : String) (hs : (alist_get m d).isSome = true) :
    fieldOf (applyCommand m d (some (JVal.str "off"))) d "status" =
      some (JVal.str "off") := by
  simp only [applyCommand]
  rw [if_neg (by decide), if_pos (by rfl)]
  exact fieldOf_devSetField_self m d "status" (JVal.str "off") hs

theorem fieldOf_applyValue_status (m : List (String × List (String × JVal)))
    (d d' : String) (w : Option JVal) :
    fieldOf (applyValue m d w) d' "status" = fieldOf m d' "status" := by
  unfold applyValue
  cases w with
  | none => rfl
  | some v =>
    by_cases hl : (d == "light") = true
    · simp only [hl, if_true]
      exact fieldOf_devSetField_ne_field m d d' "brightness" "status" v
        (by decide)
    · simp only [Bool.not_eq_true] at hl
      by_cases ha : (d == "aircon") = true
      · simp only [hl, ha, Bool.false_eq_true, if_false, if_true]
        exact fieldOf_devSetField_ne_field m d d' "temperature" "status" v
          (by decide)
      · simp only [Bool.not_eq_true] at ha
        simp [hl, ha]

theorem isSome_applyCommand (m : List (String × List (String × JVal)))
    (d x : String) (c : Option JVal) :
    (alist_get (applyCommand m d c) x).isSome = (alist_get m x).isSome :=
  isSome_of_keysEq _ _ (keysOf_applyCommand m d c) x

theorem applyValue_light (m : List (String × List (String × JVal)))
    (v : JVal) (hs : (alist_get m "light").isSome = true) :
    fieldOf (applyValue m "light" (some v)) "light" "brightness" = some v := by
  simp only [applyValue]
  rw [if_pos (by rfl)]
  exact fieldOf_devSetField_self m "light" "brightness" v hs

theorem applyValue_aircon (m : List (String × List (String × JVal)))
    (v : JVal) (hs : (alist_get m "aircon").isSome = true) :
    fieldOf (applyValue m "aircon" (some v)) "aircon" "temperature" =
      some v := by
  simp only [applyValue]
  rw [if_neg (by decide), if_pos (by rfl)]
  exact fieldOf_devSetField_self m "aircon" "temperature" v hs

/-! ### statusOk preservation -/

theorem statusOk_of_get (m : List (String × List (String × JVal)))
    (d : String) (r : List (String × JVal))
    (hall : m.all (fun p => statusOk p.2) = true)
    (hg : alist_get m d = some r) : statusOk r = true := by
  induction m with
  | nil => exact absurd hg (by simp [alist_get])
  | cons p rest ih =>
    simp only [List.all_cons, Bool.and_eq_true] at hall
    by_cases h : (p.1 == d) = true
    · unfold alist_get at hg
      rw [if_pos h] at hg
      cases hg
      exact hall.1
    · simp only [Bool.not_eq_true] at h
      unfold alist_get at hg
      rw [if_neg (by simp [h])] at hg
      exact ih hall.2 hg

theorem all_statusOk_dictSet (m : List (String × List (String × JVal)))
    (d : String) (r' : List (String × JVal)) (hr' : statusOk r' = true)
    (hall : m.all (fun p => statusOk p.2) = true) :
    (dictSet m d r').all (fun p => statusOk p.2) = true := by
  induction m with
  | nil => simp [dictSet, hr']
  | cons p rest ih =>
    rcases p with ⟨k0, r0⟩
    simp only [List.all_cons, Bool.and_eq_true] at hall
    by_cases h : (k0 == d) = true
    · simp [dictSet, h, hr', hall.2, List.all_cons]
    · simp only [Bool.not_eq_true] at h
      simp [dictSet, h, List.all_cons, hall.1, ih hall.2]

theorem statusOk_dictSet_status (r : List (String × JVal)) (s : String)
    (hs : (s == "on" || s == "off") = true) :
    statusOk (dictSet r "status" (JVal.str s)) = true := by
  unfold statusOk
  rw [alist_get_dictSet_self]
  exact hs

theorem statusOk_dictSet_other (r : List (String × JVal)) (k : String)
    (v : JVal) (hk : "status" ≠ k) :
    statusOk (dictSet r k v) = statusOk r := by
  unfold statusOk
  rw [alist_get_dictSet_ne r k "status" v hk]

theorem all_statusOk_devSetField (m : List (String × List (String × JVal)))
    (d k : String) (v : JVal)
    (hall : m.all (fun p => statusOk p.2) = true)
    (hpres : ∀ r, statusOk r = true → statusOk (dictSet r k v) = true) :
    (devSetField m d k v).all (fun p => statusOk p.2) = true := by
  unfold devSetField
  cases hg : alist_get m d with
  | none => exact hall
  | some r =>
    exact all_statusOk_dictSet m d _ (hpres r (statusOk_of_get m d r hall hg))
      hall

theorem all_statusOk_applyCommand (m : List (String × List (String × JVal)))
    (d : String) (c : Option JVal)
    (hall : m.all (fun p => statusOk p.2) = true) :
    (applyCommand m d c).all (fun p => statusOk p.2) = true := by
  unfold applyCommand
  cases c with
  | none => exact hall
  | some jv =>
    cases jv with
    | str s =>
      by_cases hon : (s == "on") = true
      · simp only [hon, if_true]
        exact all_statusOk_devSetField m d "status" (JVal.str "on") hall
          (fun r _ => statusOk_dictSet_status r "on" (by decide))
      · simp only [Bool.not_eq_true] at hon
        by_cases hoff : (s == "off") = true
        · simp only [hon, Bool.false_eq_true, if_false, hoff, if_true]
          exact all_statusOk_devSetField m d "status" (JVal.str "off") hall
            (fun r _ => statusOk_dictSet_status r "off" (by decide))
        · simp only [Bool.not_eq_true] at hoff
          simp only [hon, hoff, Bool.false_eq_true, if_false]
          exact hall
    | null => exact hall
    | bool b => exact hall
    | num n => exact hall
    | arr xs => exact hall
    | obj fs => exact hall

theorem all_statusOk_applyValue (m : List (String × List (String × JVal)))
    (d : String) (w : Option JVal)
    (hall : m.all (fun p => statusOk p.2) = true) :
    (applyValue m d w).all (fun p => statusOk p.2) = true := by
  unfold applyValue
  cases w with
  | none => exact hall
  | some v =>
    by_cases hl : (d == "light") = true
    · simp only [hl, if_true]
      exact all_statusOk_devSetField m d "brightness" v hall
        (fun r hr => by
          rw [statusOk_dictSet_other r "brightness" v (by decide)]
          exact hr)
    · simp only [Bool.not_eq_true] at hl
      by_cases ha : (d == "aircon") = true
      · simp only [hl, Bool.false_eq_true, if_false, ha, if_true]
        exact all_statusOk_devSetField m d "temperature" v hall
          (fun r hr => by
            rw [statusOk_dictSet_other r "temperature" v (by decide)]
            exact hr)
      · simp only [Bool.not_eq_true] at ha
        simp only [hl, ha, Bool.false_eq_true, if_false]
        exact hall

/-! ### action_step and execute_actions lemmas -/

theorem action_step_known (m : List (String × List (String × JVal)))
    (fields : List (String × JVal)) (d : String)
    (hd : pyDictGet fields "device" = some (JVal.str d))
    (hs : (alist_get m d).isSome = true) :
    action_step m (JVal.obj fields) =
      (applyValue (applyCommand m d (pyDictGet fields "command")) d
         (pyDictGet fields "value"),
       some (d ++ "を制御しました"), false) := by
  simp only [action_step, hd]
  rw [if_pos hs]

theorem action_step_unknown (m : List (String × List (String × JVal)))
    (fields : List (String × JVal)) (d : String)
    (hd : pyDictGet fields "device" = some (JVal.str d))
    (hs : (alist_get m d).isSome = false) :
    action_step m (JVal.obj fields) = (m, none, false) := by
  simp only [action_step, hd]
  rw [if_neg (by simp [hs])]

theorem action_step_skip (m : List (String × List (String × JVal)))
    (fields : List (String × JVal))
    (h : ∀ d, pyDictGet fields "device" ≠ some (JVal.str d))
    (hh : hashableDevice fields = true) :
    action_step m (JVal.obj fields) = (m, none, false) := by
  cases hd : pyDictGet fields "device" with
  | none => simp only [action_step, hd]
  | some jv =>
    cases jv with
    | str d => exact absurd hd (h d)
    | null => simp only [action_step, hd]
    | bool b => simp only [action_step, hd]
    | num n => simp only [action_step, hd]
    | arr xs =>
      exfalso
      unfold hashableDevice at hh
      rw [hd] at hh
      exact Bool.false_ne_true hh
    | obj fs =>
      exfalso
      unfold hashableDevice at hh
      rw [hd] at hh
      exact Bool.false_ne_true hh

theorem action_step_raise (m : List (String × List (String × JVal)))
    (fields : List (String × JVal))
    (hh : hashableDevice fields = false) :
    action_step m (JVal.obj fields) = (m, none, true) := by
  cases hd : pyDictGet fields "device" with
  | none =>
    exfalso
    unfold hashableDevice at hh
    rw [hd] at hh
    exact Bool.noConfusion hh
  | some jv =>
    cases jv with
    | str d =>
      exfalso
      unfold hashableDevice at hh
      rw [hd] at hh
      exact Bool.noConfusion hh
    | null =>
      exfalso
      unfold hashableDevice at hh
      rw [hd] at hh
      exact Bool.noConfusion hh
    | bool b =>
      exfalso
      unfold hashableDevice at hh
      rw [hd] at hh
      exact Bool.noConfusion hh
    | num n =>
      exfalso
      unfold hashableDevice at hh
      rw [hd] at hh
      exact Bool.noConfusion hh
    | arr xs => simp only [action_step, hd]
    | obj fs => simp only [action_step, hd]

theorem action_step_keys (m : List (String × List (String × JVal))) (a : JVal) :
    keysOf (action_step m a).1 = keysOf m := by
  cases a with
  | obj fields =>
    cases hd : pyDictGet fields "device" with
    | none => simp only [action_step, hd]
    | some jv =>
      cases jv with
      | str d =>
        by_cases hs : (alist_get m d).isSome = true
        · rw [action_step_known m fields d hd hs]
          simp only []
          rw [keysOf_applyValue, keysOf_applyCommand]
        · rw [action_step_unknown m fields d hd (by simpa using hs)]
      | null => simp only [action_step, hd]
      | bool b => simp only [action_step, hd]
      | num n => simp only [action_step, hd]
      | arr xs => simp only [action_step, hd]
      | obj fs => simp only [action_step, hd]
  | null => rfl
  | bool b => rfl
  | num n => rfl
  | str s => rfl
  | arr xs => rfl

theorem action_step_all_statusOk (m : List (String × List (String × JVal)))
    (a : JVal) (hall : m.all (fun p => statusOk p.2) = true) :
    ((action_step m a).1).all (fun p => statusOk p.2) = true := by
  cases a with
  | obj fields =>
    cases hd : pyDictGet fields "device" with
    | none =>
      simp only [action_step, hd]
      exact hall
    | some jv =>
      cases jv with
      | str d =>
        by_cases hs : (alist_get m d).isSome = true
        · rw [action_step_known m fields d hd hs]
          exact all_statusOk_applyValue _ d _
            (all_statusOk_applyCommand m d _ hall)
        · rw [action_step_unknown m fields d hd (by simpa using hs)]
          exact hall
      | null =>
        simp only [action_step, hd]
        exact hall
      | bool b =>
        simp only [action_step, hd]
        exact hall
      | num n =>
        simp only [action_step, hd]
        exact hall
      | arr xs =>
        simp only [action_step, hd]
        exact hall
      | obj fs =>
        simp only [action_step, hd]
        exact hall
  | null => exact hall
  | bool b => exact hall
  | num n => exact hall
  | str s => exact hall
  | arr xs => exact hall

theorem devInv_action_step (m : List (String × List (String × JVal)))
    (a : JVal) (h : devInv m = true) : devInv (action_step m a).1 = true := by
  simp only [devInv, Bool.and_eq_true] at h ⊢
  refine ⟨?_, action_step_all_statusOk m a h.2⟩
  rw [show keysOf (action_step m a).1 = keysOf m from action_step_keys m a]
  exact h.1

theorem execute_actions_keys (as : List JVal)
    (m : List (String × List (String × JVal))) :
    keysOf (execute_actions m as).1 = keysOf m := by
  induction as generalizing m with
  | nil => rfl
  | cons a rest ih =>
    simp only [execute_actions]
    rcases hstep : action_step m a with ⟨m1, conf, raised⟩
    have hk1 : keysOf m1 = keysOf m := by
      have := action_step_keys m a
      rw [hstep] at this
      exact this
    cases raised
    · simp only []
      rcases hrec : execute_actions m1 rest with ⟨m2, cs, r2⟩
      have hk2 : keysOf m2 = keysOf m1 := by
        have := ih m1
        rw [hrec] at this
        exact this
      cases r2 <;> simp only [] <;> rw [hk2, hk1]
    · simp only []
      exact hk1

theorem devInv_execute (as : List JVal)
    (m : List (String × List (String × JVal))) (h : devInv m = true) :
    devInv (execute_actions m as).1 = true := by
  induction as generalizing m with
  | nil => exact h
  | cons a rest ih =>
    simp only [execute_actions]
    rcases hstep : action_step m a with ⟨m1, conf, raised⟩
    have h1 : devInv m1 = true := by
      have := devInv_action_step m a h
      rw [hstep] at this
      exact this
    cases raised
    · simp only []
      rcases hrec : execute_actions m1 rest with ⟨m2, cs, r2⟩
      have h2 : devInv m2 = true := by
        have := ih m1 h1
        rw [hrec] at this
        exact this
      cases r2 <;> simp only [] <;> exact h2
    · simp only []
      exact h1

theorem execute_actions_single (m : List (String × List (String × JVal)))
    (a : JVal) :
    execute_actions m [a] =
      match action_step m a with
      | (m1, conf, false) => (m1, conf.toList, false)
      | (m1, _, true) => (m1, [], true) := by
  simp only [execute_actions]
  rcases hstep : action_step m a with ⟨m1, conf, raised⟩
  cases raised <;> simp

/-! ## Claim C9: device-map invariant -/

/-- C9: starting from the initial `devices` map, after any sequence of
`execute_actions` calls on arbitrary action lists (well-formed or not),
the map still has exactly the keys `light` and `aircon` and every
device's `status` is `"on"` or `"off"`. -/
theorem device_map_invariant (calls : List (List JVal)) :
    devInv (calls.foldl
      (fun m actions => (execute_actions m actions).1) devices0) = true := by
  have main : ∀ m, devInv m = true →
      devInv (calls.foldl
        (fun m actions => (execute_actions m actions).1) m) = true := by
    induction calls with
    | nil => exact fun m hm => hm
    | cons actions rest ih =>
      intro m hm
      rw [List.foldl_cons]
      exact ih _ (devInv_execute actions m hm)
  exact main devices0 rfl

/-! ## Claim C3: execute_actions semantics -/

theorem execute_raised_results_nil (as : List JVal)
    (m : List (String × List (String × JVal)))
    (h : (execute_actions m as).2.2 = true) :
    (execute_actions m as).2.1 = [] := by
  induction as generalizing m with
  | nil => simp [execute_actions] at h
  | cons a rest ih =>
    simp only [execute_actions] at h ⊢
    rcases hstep : action_step m a with ⟨m1, conf, raised⟩
    rw [hstep] at h
    cases raised
    · simp only [] at h ⊢
      rcases hr : execute_actions m1 rest with ⟨m2, cs, r2⟩
      rw [hr] at h
      cases r2
      · simp at h
      · simp
    · simp

theorem execute_actions_append (m : List (String × List (String × JVal)))
    (as bs : List JVal) :
    execute_actions m (as ++ bs) =
      match execute_actions m as with
      | (m1, cs, false) =>
        match execute_actions m1 bs with
        | (m2, ds, false) => (m2, cs ++ ds, false)
        | (m2, _, true) => (m2, [], true)
      | (m1, _, true) => (m1, [], true) := by
  induction as generalizing m with
  | nil =>
    simp only [List.nil_append, execute_actions]
    rcases hb : execute_actions m bs with ⟨m2, ds, r2⟩
    cases r2
    · simp
    · simp only []
      have := execute_raised_results_nil bs m (by rw [hb])
      rw [hb] at this
      simp only [] at this
      rw [this]
  | cons a rest ih =>
    simp only [List.cons_append, execute_actions, List.append_eq]
    rcases hstep : action_step m a with ⟨m1, conf, raised⟩
    cases raised
    · simp only []
      rw [ih m1]
      rcases hr : execute_actions m1 rest with ⟨m2, cs, r2⟩
      cases r2
      · simp only []
        rcases hb : execute_actions m2 bs with ⟨m3, ds, r3⟩
        cases r3 <;> simp
      · simp
    · simp

/-- C3: `execute_actions` processes actions in input order (prefix
composition law); a known-device action yields exactly one confirmation
naming the device, sets `status` per an `"on"`/`"off"` command and writes
an extant `value` unconditionally into the device-specific attribute;
an action naming an unknown device is silently skipped; and the two
concrete examples from the spec hold from the initial device state. -/
theorem execute_actions_spec :
    (execute_actions devices0
        [JVal.obj [("device", JVal.str "light"), ("command", JVal.str "on"),
                   ("value", JVal.num 80)]] =
      ([("light", [("status", JVal.str "on"), ("brightness", JVal.num 80)]),
        ("aircon", [("status", JVal.str "off"), ("temperature", JVal.num 25)])],
       ["lightを制御しました"], false)) ∧
    (∀ m, alist_get m "unknown" = none →
      execute_actions m
          [JVal.obj [("device", JVal.str "unknown"),
                     ("command", JVal.str "on")]] =
        (m, [], false)) ∧
    (∀ m as bs,
      execute_actions m (as ++ bs) =
        match execute_actions m as with
        | (m1, cs, false) =>
          match execute_actions m1 bs with
          | (m2, ds, false) => (m2, cs ++ ds, false)
          | (m2, _, true) => (m2, [], true)
        | (m1, _, true) => (m1, [], true)) ∧
    (∀ m fields d,
      pyDictGet fields "device" = some (JVal.str d) →
      (alist_get m d).isSome = true →
      (execute_actions m [JVal.obj fields]).2.1 = [d ++ "を制御しました"] ∧
      (execute_actions m [JVal.obj fields]).2.2 = false ∧
      (pyDictGet fields "command" = some (JVal.str "on") →
        fieldOf (execute_actions m [JVal.obj fields]).1 d "status" =
          some (JVal.str "on")) ∧
      (pyDictGet fields "command" = some (JVal.str "off") →
        fieldOf (execute_actions m [JVal.obj fields]).1 d "status" =
          some (JVal.str "off")) ∧
      (∀ v, pyDictGet fields "value" = some v →
        (d = "light" →
          fieldOf (execute_actions m [JVal.obj fields]).1 d "brightness" =
            some v) ∧
        (d = "aircon" →
          fieldOf (execute_actions m [JVal.obj fields]).1 d "temperature" =
            some v))) := by
  refine ⟨rfl, ?_, execute_actions_append, ?_⟩
  · intro m h
    have hexec : execute_actions m
        [JVal.obj [("device", JVal.str "unknown"), ("command", JVal.str "on")]] =
        (m, [], false) := by
      rw [execute_actions_single,
        action_step_unknown m
          [("device", JVal.str "unknown"), ("command", JVal.str "on")]
          "unknown" rfl (by simp [h])]
      rfl
    exact hexec
  · intro m fields d hd hs
    have hexec : execute_actions m [JVal.obj fields] =
        (applyValue (applyCommand m d (pyDictGet fields "command")) d
           (pyDictGet fields "value"),
         [d ++ "を制御しました"], false) := by
      rw [execute_actions_single, action_step_known m fields d hd hs]
      rfl
    rw [hexec]
    refine ⟨rfl, rfl, ?_, ?_, ?_⟩
    · intro hc
      rw [fieldOf_applyValue_status, hc]
      exact applyCommand_status_on m d hs
    · intro hc
      rw [fieldOf_applyValue_status, hc]
      exact applyCommand_status_off m d hs
    · intro v hv
      constructor
      · intro hld
        subst hld
        rw [hv]
        exact applyValue_light _ v (by rw [isSome_applyCommand]; exact hs)
      · intro hld
        subst hld
        rw [hv]
        exact applyValue_aircon _ v (by rw [isSome_applyCommand]; exact hs)

/-- Witness for C3's quantified parts at a concrete map and action. -/
theorem execute_actions_spec_witness :
    execute_actions devices0
        [JVal.obj [("device", JVal.str "unknown"), ("command", JVal.str "on")]] =
      (devices0, [], false) ∧
    fieldOf (execute_actions devices0
        [JVal.obj [("device", JVal.str "aircon"), ("command", JVal.str "off"),
                   ("value", JVal.num 22)]]).1 "aircon" "temperature" =
      some (JVal.num 22) :=
  ⟨(execute_actions_spec).2.1 devices0 rfl,
   ((execute_actions_spec).2.2.2 devices0
      [("device", JVal.str "aircon"), ("command", JVal.str "off"),
       ("value", JVal.num 22)] "aircon" rfl rfl).2.2.2.2 (JVal.num 22)
      rfl |>.2 rfl⟩

/-! ## Claim C10: one confirmation per known-device action -/

theorem knownDev_of_keysEq (m1 m : List (String × List (String × JVal)))
    (h : keysOf m1 = keysOf m) (f : List (String × JVal)) :
    knownDev m1 f = knownDev m f := by
  unfold knownDev
  cases hd : pyDictGet f "device" with
  | none => rfl
  | some jv =>
    cases jv with
    | str d => exact isSome_of_keysEq m1 m h d
    | null => rfl
    | bool b => rfl
    | num n => rfl
    | arr xs => rfl
    | obj fs => rfl

theorem action_step_obj_cases (m : List (String × List (String × JVal)))
    (f : List (String × JVal)) :
    (knownDev m f = true →
      ∃ d m1, pyDictGet f "device" = some (JVal.str d) ∧
        action_step m (JVal.obj f) = (m1, some (d ++ "を制御しました"), false) ∧
        keysOf m1 = keysOf m) ∧
    (knownDev m f = false → hashableDevice f = true →
      action_step m (JVal.obj f) = (m, none, false)) := by
  unfold knownDev
  cases hd : pyDictGet f "device" with
  | none =>
    exact ⟨fun h => absurd h (by simp),
      fun _ hh => action_step_skip m f (by simp [hd]) hh⟩
  | some jv =>
    cases jv with
    | str d =>
      constructor
      · intro hs
        refine ⟨d, applyValue (applyCommand m d (pyDictGet f "command")) d
          (pyDictGet f "value"), rfl, action_step_known m f d hd hs, ?_⟩
        rw [keysOf_applyValue, keysOf_applyCommand]
      · intro hs _
        exact action_step_unknown m f d hd hs
    | null =>
      exact ⟨fun h => absurd h (by simp),
        fun _ hh => action_step_skip m f (by simp [hd]) hh⟩
    | bool b =>
      exact ⟨fun h => absurd h (by simp),
        fun _ hh => action_step_skip m f (by simp [hd]) hh⟩
    | num n =>
      exact ⟨fun h => absurd h (by simp),
        fun _ hh => action_step_skip m f (by simp [hd]) hh⟩
    | arr xs =>
      exact ⟨fun h => absurd h (by simp),
        fun _ hh => absurd hh (by simp [hashableDevice, hd])⟩
    | obj fs =>
      exact ⟨fun h => absurd h (by simp),
        fun _ hh => absurd hh (by simp [hashableDevice, hd])⟩

theorem execute_objs_count (fss : List (List (String × JVal)))
    (m : List (String × List (String × JVal)))
    (hh : fss.all hashableDevice = true) :
    (execute_actions m (fss.map JVal.obj)).2.2 = false ∧
    (execute_actions m (fss.map JVal.obj)).2.1.length =
      fss.countP (fun f => knownDev m f) := by
  induction fss generalizing m with
  | nil => exact ⟨rfl, rfl⟩
  | cons f rest ih =>
    simp only [List.all_cons, Bool.and_eq_true] at hh
    simp only [List.map_cons, execute_actions]
    by_cases hk : knownDev m f = true
    · obtain ⟨d, m1, hd, hstep, hkeys⟩ := (action_step_obj_cases m f).1 hk
      rw [hstep]
      simp only []
      rcases hr : execute_actions m1 (rest.map JVal.obj) with ⟨m2, cs, r2⟩
      have hih := ih m1 hh.2
      rw [hr] at hih
      simp only [] at hih
      have hcong : rest.countP (fun f => knownDev m1 f) =
          rest.countP (fun f => knownDev m f) :=
        List.countP_congr (fun f _ => by rw [knownDev_of_keysEq m1 m hkeys f])
      rw [hih.1]
      refine ⟨rfl, ?_⟩
      simp only [List.countP_cons, hk, if_true]
      rw [← hcong, ← hih.2]
      simp [Nat.add_comm]
    · have hk' : knownDev m f = false := by simpa using hk
      rw [(action_step_obj_cases m f).2 hk' hh.1]
      simp only []
      rcases hr : execute_actions m (rest.map JVal.obj) with ⟨m2, cs, r2⟩
      have hih := ih m hh.2
      rw [hr] at hih
      simp only [] at hih
      rw [hih.1]
      refine ⟨rfl, ?_⟩
      simp only [List.countP_cons, hk', Option.toList_none, List.nil_append]
      rw [hih.2]
      simp

/-- C10 counterexample: a dict action whose `device` value is a JSON array
is unhashable, so `device in devices` raises `TypeError` and the loop
aborts: on `[{"device": [1]}, {"device": "light"}]` the program raises and
emits no confirmations, although one input action names a known device —
the claimed length/count equation fails. -/
theorem confirmations_raise_counterexample :
    execute_actions devices0
        [JVal.obj [("device", JVal.arr [JVal.num 1])],
         JVal.obj [("device", JVal.str "light")]] =
      (devices0, [], true) ∧
    [[("device", JVal.arr [JVal.num 1])],
     [("device", JVal.str "light")]].countP
        (fun f => knownDev devices0 f) = 1 :=
  ⟨rfl, rfl⟩

/-- C10 (amended): for action lists made of dicts none of whose `device`
values is a JSON array or object (those are unhashable and make the
membership test raise, aborting the loop and discarding all
confirmations), `execute_actions` never raises and returns exactly one
confirmation per action whose `device` names a known key — regardless of
whether `command` is present or recognized; a known-device action with an
unrecognized command still emits the confirmation, leaves `status`
unchanged, and still overwrites the numeric attribute when `value` is
present. -/
theorem execute_actions_confirmations :
    (∀ (m : List (String × List (String × JVal)))
       (fss : List (List (String × JVal))),
      fss.all hashableDevice = true →
      (execute_actions m (fss.map JVal.obj)).2.2 = false ∧
      (execute_actions m (fss.map JVal.obj)).2.1.length =
        fss.countP (fun f => knownDev m f)) ∧
    (∀ m fields d,
      pyDictGet fields "device" = some (JVal.str d) →
      (alist_get m d).isSome = true →
      pyDictGet fields "command" ≠ some (JVal.str "on") →
      pyDictGet fields "command" ≠ some (JVal.str "off") →
      (execute_actions m [JVal.obj fields]).2.1 = [d ++ "を制御しました"] ∧
      fieldOf (execute_actions m [JVal.obj fields]).1 d "status" =
        fieldOf m d "status" ∧
      (∀ v, pyDictGet fields "value" = some v →
        (d = "light" →
          fieldOf (execute_actions m [JVal.obj fields]).1 d "brightness" =
            some v) ∧
        (d = "aircon" →
          fieldOf (execute_actions m [JVal.obj fields]).1 d "temperature" =
            some v))) := by
  refine ⟨fun m fss hh => execute_objs_count fss m hh, ?_⟩
  intro m fields d hd hs hc1 hc2
  have hcmd : applyCommand m d (pyDictGet fields "command") = m :=
    applyCommand_other m d _ hc1 hc2
  have hexec : execute_actions m [JVal.obj fields] =
      (applyValue m d (pyDictGet fields "value"),
       [d ++ "を制御しました"], false) := by
    rw [execute_actions_single, action_step_known m fields d hd hs, hcmd]
    rfl
  rw [hexec]
  refine ⟨rfl, fieldOf_applyValue_status m d d _, ?_⟩
  intro v hv
  constructor
  · intro hld
    subst hld
    rw [hv]
    exact applyValue_light m v hs
  · intro hld
    subst hld
    rw [hv]
    exact applyValue_aircon m v hs

/-- Witness for C10: a mixed list with one known and one unknown device
produces exactly one confirmation, and a known-device action with the
unrecognized command `"toggle"` still confirms, keeps `status`, and writes
`value`. -/
theorem execute_actions_confirmations_witness :
    (execute_actions devices0
        [JVal.obj [("device", JVal.str "light")],
         JVal.obj [("device", JVal.str "tv"), ("command", JVal.str "on")]]
      ).2.1.length = 1 ∧
    (execute_actions devices0
        [JVal.obj [("device", JVal.str "light"), ("command", JVal.str "toggle"),
                   ("value", JVal.num 55)]]).2.1 = ["lightを制御しました"] ∧
    fieldOf (execute_actions devices0
        [JVal.obj [("device", JVal.str "light"), ("command", JVal.str "toggle"),
                   ("value", JVal.num 55)]]).1 "light" "status" =
      fieldOf devices0 "light" "status" ∧
    fieldOf (execute_actions devices0
        [JVal.obj [("device", JVal.str "light"), ("command", JVal.str "toggle"),
                   ("value", JVal.num 55)]]).1 "light" "brightness" =
      some (JVal.num 55) := by
  have h1 := (execute_actions_confirmations).1 devices0
    [[("device", JVal.str "light")],
     [("device", JVal.str "tv"), ("command", JVal.str "on")]] rfl
  have h2 := (execute_actions_confirmations).2 devices0
    [("device", JVal.str "light"), ("command", JVal.str "toggle"),
     ("value", JVal.num 55)] "light" rfl rfl
    (by intro h; injection h with h2; injection h2 with h3
        exact absurd h3 (by decide))
    (by intro h; injection h with h2; injection h2 with h3
        exact absurd h3 (by decide))
  exact ⟨h1.2, h2.1, h2.2.1,
    (h2.2.2 (JVal.num 55) rfl).1 rfl⟩

/-! ## Claim C7: intent routing -/

/-- C7: routing is first-match-wins over the registration-ordered table:
an `IntentRequest` named `AMAZON.HelpIntent` always gets the fixed help
text (with the help re-prompt, slots ignored), and an event no registered
non-catch-all handler can handle gets the fixed "not supported yet" text
and logs a warning naming the request's type and intent. -/
theorem routing_help_and_catchall (ev : AlexaEvent)
    (vendor : List Msg → VendorResult)
    (m : List (String × List (String × JVal))) :
    (ev.requestType = "IntentRequest" →
      ev.intentName = some "AMAZON.HelpIntent" →
      lambda_handler ev vendor m =
        (⟨some (JVal.str helpMsg), some askHelpMsg⟩, m, [])) ∧
    ((handlers.all fun p => p.1 == HandlerTag.catchAll || !(p.2 ev)) = true →
      lambda_handler ev vendor m =
        (⟨some (JVal.str notSupportedMsg), none⟩, m,
         ["[CatchAll] Unmatched request: type=" ++ ev.requestType ++
           " intent=" ++ ev.intentName.getD "None"])) := by
  constructor
  · intro h1 h2
    have hd : dispatch ev = HandlerTag.help := by
      simp [dispatch, handlers, List.find?, is_request_type, is_intent_name,
        h1, h2]
    simp [lambda_handler, hd, runHandler]
  · intro h
    have hall := List.all_eq_true.1 h
    have hL : is_request_type "LaunchRequest" ev = false := by
      simpa using hall (HandlerTag.launch, is_request_type "LaunchRequest")
        (by simp [handlers])
    have hF : is_intent_name "FreeTalkIntent" ev = false := by
      simpa using hall (HandlerTag.freeTalk, is_intent_name "FreeTalkIntent")
        (by simp [handlers])
    have hP : is_intent_name "SimplePhrase" ev = false := by
      simpa using hall (HandlerTag.simplePhrase, is_intent_name "SimplePhrase")
        (by simp [handlers])
    have hD : is_intent_name "DeviceControl" ev = false := by
      simpa using hall (HandlerTag.deviceControl,
        is_intent_name "DeviceControl") (by simp [handlers])
    have hFb : is_intent_name "AMAZON.FallbackIntent" ev = false := by
      simpa using hall (HandlerTag.fallbackIntent,
        is_intent_name "AMAZON.FallbackIntent") (by simp [handlers])
    have hH : is_intent_name "AMAZON.HelpIntent" ev = false := by
      simpa using hall (HandlerTag.help, is_intent_name "AMAZON.HelpIntent")
        (by simp [handlers])
    have hC : (fun ev =>
        is_intent_name "AMAZON.CancelIntent" ev ||
        is_intent_name "AMAZON.StopIntent" ev) ev = false := by
      simpa using hall (HandlerTag.cancelStop, fun ev =>
        is_intent_name "AMAZON.CancelIntent" ev ||
        is_intent_name "AMAZON.StopIntent" ev) (by simp [handlers])
    have hS : is_request_type "SessionEndedRequest" ev = false := by
      simpa using hall (HandlerTag.sessionEnded,
        is_request_type "SessionEndedRequest") (by simp [handlers])
    have hd : dispatch ev = HandlerTag.catchAll := by
      simp only [Bool.or_eq_false_iff] at hC
      simp [dispatch, handlers, List.find?, hL, hF, hP, hD, hFb, hH, hC.1,
        hC.2, hS]
    simp only [lambda_handler, hd, runHandler, catchAllWarning]
    cases hn : ev.intentName <;> simp

/-- Witness for C7: a help-intent event carrying slot content, and an
unroutable event. -/
theorem routing_help_and_catchall_witness :
    lambda_handler ⟨"IntentRequest", some "AMAZON.HelpIntent",
        some [("UserInput", some "何か")]⟩ (fun _ => VendorResult.fail)
      devices0 =
      (⟨some (JVal.str helpMsg), some askHelpMsg⟩, devices0, []) ∧
    lambda_handler ⟨"Weird.Request", none, none⟩ (fun _ => VendorResult.fail)
      devices0 =
      (⟨some (JVal.str notSupportedMsg), none⟩, devices0,
       ["[CatchAll] Unmatched request: type=Weird.Request intent=None"]) := by
  constructor
  · exact (routing_help_and_catchall _ _ _).1 rfl rfl
  · have h := (routing_help_and_catchall
      ⟨"Weird.Request", none, none⟩ (fun _ => VendorResult.fail) devices0).2
      (by decide)
    simpa using h

/-! ## Claim C6: the failure utterances -/

/-- C6 counterexample: a FreeTalk turn whose vendor reply is the valid
JSON `"{}"` (a malformed LLM reply — missing required fields) raises
`KeyError` at `result["response"]`, so the user hears the exception
handler's text `"エラーが発生しました。もう一度お願いします。"` — a fourth fixed
utterance, distinct from all three named in the claim. -/
theorem exception_utterance_counterexample :
    (lambda_handler ⟨"IntentRequest", some "FreeTalkIntent", none⟩
        (fun _ => VendorResult.ok "{}") devices0).1.speech =
      some (JVal.str excMsg) ∧
    excMsg ≠ apiErrMsg ∧ excMsg ≠ parseErrMsg ∧ excMsg ≠ notSupportedMsg :=
  ⟨rfl, by decide, by decide, by decide⟩

theorem llmHandle_speech (vendor : List Msg → VendorResult) (prompt : String)
    (m : List (String × List (String × JVal))) :
    (llmHandle vendor prompt m).1 = none ∨
    ∃ v, (llmHandle vendor prompt m).1 = some ⟨some v, some askMoreMsg⟩ ∧
      pySubscript (call_claude vendor prompt []) "response" = some v := by
  rcases hres : call_claude vendor prompt [] with _ | b | n | s | xs | fs
  · left
    simp [llmHandle, hres]
  · left
    simp [llmHandle, hres]
  · left
    simp [llmHandle, hres]
  · left
    simp [llmHandle, hres]
  · left
    simp [llmHandle, hres]
  · simp only [llmHandle, hres]
    rcases hresp : alist_get fs "response" with _ | sv
    · left
      simp only [hresp]
    · simp only [hresp]
      by_cases ht : jTruthy (pyDictGet fs "actions") = true
      · rw [if_pos ht]
        rcases hact : alist_get fs "actions" with _ | av
        · left
          simp only [hact]
        · simp only [hact]
          rcases hit : iterJ av with _ | xs
          · left
            simp only [hit]
          · simp only [hit]
            rcases hex : execute_actions m xs with ⟨m1, rs, raised⟩
            cases raised
            · right
              exact ⟨sv, rfl, by simp [pySubscript, hres, hresp]⟩
            · left
              rfl
      · rw [if_neg ht]
        right
        exact ⟨sv, rfl, by simp [pySubscript, hres, hresp]⟩

/-- C6 (amended): the four failure utterances (API-error apology, parse
"didn't understand", catch-all "not supported yet", and the exception
handler's message) are pairwise distinct, and every spoken text the
program produces is either absent, one of the seven fixed strings (three
success texts or the four failure texts), or the `response` field of a
parsed vendor reply. -/
theorem failure_utterances (ev : AlexaEvent) (vendor : List Msg → VendorResult)
    (m : List (String × List (String × JVal))) :
    ([apiErrMsg, parseErrMsg, notSupportedMsg, excMsg].Nodup) ∧
    ((lambda_handler ev vendor m).1.speech = none ∨
     (∃ s, (lambda_handler ev vendor m).1.speech = some (JVal.str s) ∧
       (s ∈ [greetingMsg, helpMsg, farewellMsg] ∨
        s ∈ [apiErrMsg, parseErrMsg, notSupportedMsg, excMsg])) ∨
     (∃ prompt v, (lambda_handler ev vendor m).1.speech = some v ∧
       pySubscript (call_claude vendor prompt []) "response" = some v)) := by
  refine ⟨by decide, ?_⟩
  cases htag : dispatch ev
  case launch =>
    right; left
    exact ⟨greetingMsg, by simp [lambda_handler, htag, runHandler], by simp⟩
  case freeTalk =>
    rcases hl : llmHandle vendor
        ((extractUserInput ev.slots).getD freeTalkDefaultPrompt) m with ⟨r, m1⟩
    have hchar := llmHandle_speech vendor
      ((extractUserInput ev.slots).getD freeTalkDefaultPrompt) m
    rw [hl] at hchar
    simp only [] at hchar
    rcases hchar with hnone | ⟨v, heq, hsub⟩
    · subst hnone
      right; left
      exact ⟨excMsg, by simp [lambda_handler, htag, runHandler, hl], by simp⟩
    · subst heq
      right; right
      exact ⟨_, v, by simp [lambda_handler, htag, runHandler, hl], hsub⟩
  case simplePhrase =>
    rcases hl : llmHandle vendor simplePhrasePrompt m with ⟨r, m1⟩
    have hchar := llmHandle_speech vendor simplePhrasePrompt m
    rw [hl] at hchar
    simp only [] at hchar
    rcases hchar with hnone | ⟨v, heq, hsub⟩
    · subst hnone
      right; left
      exact ⟨excMsg, by simp [lambda_handler, htag, runHandler, hl], by simp⟩
    · subst heq
      right; right
      exact ⟨_, v, by simp [lambda_handler, htag, runHandler, hl], hsub⟩
  case deviceControl =>
    rcases hl : llmHandle vendor deviceControlPrompt m with ⟨r, m1⟩
    have hchar := llmHandle_speech vendor deviceControlPrompt m
    rw [hl] at hchar
    simp only [] at hchar
    rcases hchar with hnone | ⟨v, heq, hsub⟩
    · subst hnone
      right; left
      exact ⟨excMsg, by simp [lambda_handler, htag, runHandler, hl], by simp⟩
    · subst heq
      right; right
      exact ⟨_, v, by simp [lambda_handler, htag, runHandler, hl], hsub⟩
  case fallbackIntent =>
    rcases hl : llmHandle vendor fallbackPrompt m with ⟨r, m1⟩
    have hchar := llmHandle_speech vendor fallbackPrompt m
    rw [hl] at hchar
    simp only [] at hchar
    rcases hchar with hnone | ⟨v, heq, hsub⟩
    · subst hnone
      right; left
      exact ⟨excMsg, by simp [lambda_handler, htag, runHandler, hl], by simp⟩
    · subst heq
      right; right
      exact ⟨_, v, by simp [lambda_handler, htag, runHandler, hl], hsub⟩
  case help =>
    right; left
    exact ⟨helpMsg, by simp [lambda_handler, htag, runHandler], by simp⟩
  case cancelStop =>
    right; left
    exact ⟨farewellMsg, by simp [lambda_handler, htag, runHandler], by simp⟩
  case sessionEnded =>
    left
    simp [lambda_handler, htag, runHandler]
  case catchAll =>
    right; left
    exact ⟨notSupportedMsg, by simp [lambda_handler, htag, runHandler],
      by simp⟩

end NatureTalk
